import Mathlib

/-!
Shallow embedding of the star-rating component in `src/src/StarRating.tsx`:
the stars-state derivation `createNewStarsState`, the interaction handlers
(`handleClick` / `handleStarsStateUpdate`, `handleMouseMove`,
`handleMouseLeave`), the configuration checks executed when the component
function first runs, and the default resolution of the destructured props.

Star fill levels are the numbers the source uses (`0` empty, `1` half,
`2` full).  JS numbers that hold ratings and pointer coordinates are
modelled as `ℚ` (every value the component produces is a multiple of
`0.5`); JS `null` is modelled as `Option`.  A call of the host callback
`onRatingChange` is modelled as an emitted value: each handler returns,
besides the new state, the list of ratings it reported to the host.
-/

namespace StarRating

/-- Side of a star slot last hovered: the JS string literals `"L"` and
`"R"` stored in the `lastSide` state cell. -/
inductive Side where
  | L : Side
  | R : Side
  deriving DecidableEq, Repr

/-- Pointer events the rendered slots forward to the handlers.  `index` is
the 1-based slot index (`drawStars` binds `index + 1` over a 0-based map).
`click` carries the horizontal pointer offset inside the slot and the slot
width (`event.nativeEvent.offsetX` and `rect.width`); `move` carries the
viewport x-coordinate, the slot's left edge and the slot width
(`event.clientX`, `rect.left`, `rect.width`). -/
inductive Event where
  | click (index : ℕ) (offsetX width : ℚ) : Event
  | move (index : ℕ) (clientX rectLeft width : ℚ) : Event
  | leave : Event
  deriving DecidableEq, Repr

/-- The four `useState` cells of the component, `src/src/StarRating.tsx`
lines 342-373: `starsState`, `previousStarsState`,
`lastClickedUntilIndexState`, `lastSide`. -/
structure ComponentState where
  starsState : List ℕ
  previousStarsState : List ℕ
  lastClickedUntilIndexState : Option ℚ
  lastSide : Option Side
  deriving DecidableEq, Repr

/-- The resolved configuration props that the state logic reads.
Rendering-only props (`dimension`, `color`) and the callbacks do not enter
the state logic and are not modelled. -/
structure Config where
  starsLength : ℕ
  isHalfRatingEnabled : Bool
  isHoverEnabled : Bool
  isReadOnly : Bool
  initialRating : ℚ
  deriving DecidableEq, Repr

/-- The props record as the host supplies it: every field optional
(`StarRatingProps` in the source). -/
structure StarRatingProps where
  starsLength : Option ℕ
  isHalfRatingEnabled : Option Bool
  isHoverEnabled : Option Bool
  isReadOnly : Option Bool
  initialRating : Option ℚ
  deriving DecidableEq, Repr

/-- Default resolution of the destructured props, `src/src/StarRating.tsx`
lines 95-104.  The JS default `initialRating % 1 !== 0` holds exactly when
`initialRating` is not an integer, i.e. its reduced denominator is not 1. -/
def resolveProps (p : StarRatingProps) : Config :=
  let starsLength := p.starsLength.getD 5
  let initialRating := p.initialRating.getD 0
  let isHalfRatingEnabled := p.isHalfRatingEnabled.getD (decide (initialRating.den ≠ 1))
  let isReadOnly := p.isReadOnly.getD false
  let isHoverEnabled := p.isHoverEnabled.getD (!isReadOnly)
  { starsLength := starsLength
    isHalfRatingEnabled := isHalfRatingEnabled
    isHoverEnabled := isHoverEnabled
    isReadOnly := isReadOnly
    initialRating := initialRating }

/-- The `Array.from({length: starsLength}, (_, index) => (index <
flooredUntilIndex ? 2 : 0))` expression inside `createNewStarsState`:
star `index` is full exactly when it lies below the floored boundary. -/
def starsFromBoundary (starsLength : ℕ) (flooredUntilIndex : ℤ) : List ℕ :=
  (List.range starsLength).map fun (index : ℕ) =>
    if (index : ℤ) < flooredUntilIndex then 2 else 0

/-- Embedding of `createNewStarsState` (`src/src/StarRating.tsx` lines
202-216), the `deriveFillState` of the spec: the `starsFromBoundary` base
array, then the assignment `newStarsState[flooredUntilIndex] = 1` guarded
by `hasHalfFilledStar = untilIndex - flooredUntilIndex > 0`.  The JS
assignment changes no array element when the index is negative (it creates
a non-index property), which the guard `0 ≤ ⌊untilIndex⌋` reproduces; an
index `≥ starsLength` would lengthen the JS array, but every call site
keeps `untilIndex ≤ starsLength`, where `List.set` agrees with the JS
assignment. -/
def createNewStarsState (starsLength : ℕ) (untilIndex : ℚ) : List ℕ :=
  if 0 < untilIndex - (⌊untilIndex⌋ : ℚ) then
    if 0 ≤ ⌊untilIndex⌋ then
      (starsFromBoundary starsLength ⌊untilIndex⌋).set ⌊untilIndex⌋.toNat 1
    else starsFromBoundary starsLength ⌊untilIndex⌋
  else starsFromBoundary starsLength ⌊untilIndex⌋

/-- Embedding of `isHalfClicked` (`src/src/StarRating.tsx` lines 188-193):
the pointer offset inside the slot is left of the midpoint. -/
def isHalfClicked (offsetX width : ℚ) : Bool :=
  decide (offsetX < width / 2)

/-- Embedding of `getUntilIndex` (`src/src/StarRating.tsx` lines 286-292):
the boundary a click commits, half a step down when half ratings are on
and the left half of the slot was hit. -/
def getUntilIndex (isHalfRatingEnabled : Bool) (leftHalf : Bool) (index : ℕ) : ℚ :=
  if isHalfRatingEnabled && leftHalf then (index : ℚ) - 0.5 else (index : ℚ)

/-- Embedding of `handleStarsStateUpdate` (`src/src/StarRating.tsx` lines
263-277) together with the `resetStarsState`, `updateStarsState`,
`updateLastClickedUntilIndexState` and `handleRatingChange` helpers it
calls.  All `useState` reads inside one handler see the pre-handler values
and the last write to a cell wins, so in the toggle-off branch
`previousStarsState` ends as the all-empty array written by
`resetStarsState`.  The second component lists the ratings reported to the
host via `onRatingChange`. -/
def handleStarsStateUpdate (starsLength : ℕ) (s : ComponentState) (untilIndex : ℚ) :
    ComponentState × List ℚ :=
  if s.lastClickedUntilIndexState = some untilIndex then
    ({ starsState := List.replicate starsLength 0
       previousStarsState := List.replicate starsLength 0
       lastClickedUntilIndexState := none
       lastSide := s.lastSide }, [0])
  else
    ({ starsState := createNewStarsState starsLength untilIndex
       previousStarsState := s.starsState
       lastClickedUntilIndexState := some untilIndex
       lastSide := s.lastSide }, [untilIndex])

/-- Embedding of `handleClick` (`src/src/StarRating.tsx` lines 300-303). -/
def handleClick (isHalfRatingEnabled : Bool) (starsLength : ℕ) (s : ComponentState)
    (index : ℕ) (offsetX width : ℚ) : ComponentState × List ℚ :=
  handleStarsStateUpdate starsLength s
    (getUntilIndex isHalfRatingEnabled (isHalfClicked offsetX width) index)

/-- Embedding of `handleMouseMove` (`src/src/StarRating.tsx` lines
308-329). -/
def handleMouseMove (isHalfRatingEnabled : Bool) (starsLength : ℕ) (s : ComponentState)
    (index : ℕ) (clientX rectLeft width : ℚ) : ComponentState :=
  if !isHalfRatingEnabled then
    { s with starsState := createNewStarsState starsLength (index : ℚ) }
  else
    let isLeftSide : Bool := decide (clientX < rectLeft + width / 2)
    if isLeftSide && !(s.lastSide = some Side.L) then
      { s with starsState := createNewStarsState starsLength ((index : ℚ) - 0.5)
               lastSide := some Side.L }
    else if !isLeftSide && !(s.lastSide = some Side.R) then
      { s with starsState := createNewStarsState starsLength (index : ℚ)
               lastSide := some Side.R }
    else s

/-- Embedding of `handleMouseLeave` (`src/src/StarRating.tsx` lines
407-410). -/
def handleMouseLeave (s : ComponentState) : ComponentState :=
  { s with starsState := s.previousStarsState
           lastSide := none }

/-- Construction of the component: the three configuration checks at the
top of the `StarRating` function body (`src/src/StarRating.tsx` lines
111-139) in source order, then the `useState` initialisations (lines
342-373). -/
def construct (c : Config) : Except String ComponentState :=
  if c.initialRating > (c.starsLength : ℚ) ∨ c.initialRating < 0 then
    Except.error "initialRating must be within 0 <= initialRating <= starsLength"
  else if c.starsLength ≤ 0 then
    Except.error "starsLength must be greater than 0 to ensure valid ratings."
  else if c.isReadOnly && c.isHoverEnabled then
    Except.error "isHoverEnabled cannot be true when isReadOnly is enabled. Please disable hover interactions for read-only mode."
  else
    Except.ok
      { starsState := createNewStarsState c.starsLength c.initialRating
        previousStarsState := createNewStarsState c.starsLength c.initialRating
        lastClickedUntilIndexState := some c.initialRating
        lastSide := none }

/-- One interaction event dispatched as `drawStars` binds the handlers
(`src/src/StarRating.tsx` lines 380-402): `onClick` only when not
read-only, `onMouseMove` and `onMouseLeave` only when hover is enabled; an
unbound event leaves the state alone and reports nothing. -/
def step (cfg : Config) (s : ComponentState) : Event → ComponentState × List ℚ
  | Event.click index offsetX width =>
      if cfg.isReadOnly then (s, [])
      else handleClick cfg.isHalfRatingEnabled cfg.starsLength s index offsetX width
  | Event.move index clientX rectLeft width =>
      if cfg.isHoverEnabled then
        (handleMouseMove cfg.isHalfRatingEnabled cfg.starsLength s index clientX rectLeft width, [])
      else (s, [])
  | Event.leave =>
      if cfg.isHoverEnabled then (handleMouseLeave s, []) else (s, [])

/-- Run a list of events from a state, discarding the reported ratings. -/
def run (cfg : Config) (s : ComponentState) : List Event → ComponentState
  | [] => s
  | e :: es => run cfg (step cfg s e).1 es

/-- Whether an event is a pointer move. -/
def isMoveEvent : Event → Bool
  | Event.move _ _ _ _ => true
  | _ => false

/-- Configuration used in the C6 counterexample: five stars, half ratings
and hover enabled, not read-only, initial rating 0. -/
def hoverCfg : Config :=
  { starsLength := 5, isHalfRatingEnabled := true, isHoverEnabled := true,
    isReadOnly := false, initialRating := 0 }

/-- The state `construct hoverCfg` mounts. -/
def hoverInit : ComponentState :=
  { starsState := createNewStarsState 5 0, previousStarsState := createNewStarsState 5 0,
    lastClickedUntilIndexState := some 0, lastSide := none }

/-- State reached from `hoverInit` by hovering the right half of slot 2,
hovering the right half of slot 4 (suppressed by the remembered side `R`),
then clicking the right half of slot 4: boundary 4 is committed while the
click-time preview still showed boundary 2. -/
def hoverCommitted : ComponentState :=
  run hoverCfg hoverInit [Event.move 2 9 0 10, Event.move 4 39 30 10, Event.click 4 9 10]

/-- Configuration used in the C6 witness: five stars, hover enabled, no
half ratings, not read-only, initial rating 0. -/
def plainCfg : Config :=
  { starsLength := 5, isHalfRatingEnabled := false, isHoverEnabled := true,
    isReadOnly := false, initialRating := 0 }

/-- The state `construct plainCfg` mounts. -/
def plainInit : ComponentState :=
  { starsState := createNewStarsState 5 0, previousStarsState := createNewStarsState 5 0,
    lastClickedUntilIndexState := some 0, lastSide := none }

/-- Shape invariant of one stars array: exactly `n` entries, each of them
`0`, `1` or `2`, and at most one half star `1`. -/
def StarsOk (n : ℕ) (l : List ℕ) : Prop :=
  l.length = n ∧ (∀ x ∈ l, x = 0 ∨ x = 1 ∨ x = 2) ∧ l.count 1 ≤ 1

instance instDecidableStarsOk (n : ℕ) (l : List ℕ) : Decidable (StarsOk n l) :=
  inferInstanceAs (Decidable (_ ∧ _ ∧ _))

/-- Both the rendered stars array and the leave snapshot are well
shaped. -/
def StateOk (n : ℕ) (s : ComponentState) : Prop :=
  StarsOk n s.starsState ∧ StarsOk n s.previousStarsState

instance instDecidableStateOk (n : ℕ) (s : ComponentState) : Decidable (StateOk n s) :=
  inferInstanceAs (Decidable (_ ∧ _))

/-- Events the rendered row can deliver: `drawStars` maps slots `1` to
`starsLength`. -/
def EventOk (n : ℕ) : Event → Prop
  | Event.click index _ _ => 1 ≤ index ∧ index ≤ n
  | Event.move index _ _ _ => 1 ≤ index ∧ index ≤ n
  | Event.leave => True

instance instDecidableEventOk (n : ℕ) : (e : Event) → Decidable (EventOk n e)
  | Event.click index _ _ => inferInstanceAs (Decidable (1 ≤ index ∧ index ≤ n))
  | Event.move index _ _ _ => inferInstanceAs (Decidable (1 ≤ index ∧ index ≤ n))
  | Event.leave => inferInstanceAs (Decidable True)

/-- The `Array.from` block of `createNewStarsState` is a block of `2`s of
length `min f.toNat n` followed by `0`s. -/
theorem starsFromBoundary_eq (f : ℤ) (hf : 0 ≤ f) (n : ℕ) :
    starsFromBoundary n f
      = List.replicate (min f.toNat n) 2 ++ List.replicate (n - f.toNat) 0 := by
  unfold starsFromBoundary
  induction n with
  | zero => simp
  | succ n ih =>
    rw [List.range_succ, List.map_append, ih]
    by_cases h : (n : ℤ) < f
    · have h1 : min f.toNat (n + 1) = n + 1 := by omega
      have h2 : min f.toNat n = n := by omega
      have h3 : n - f.toNat = 0 := by omega
      have h4 : n + 1 - f.toNat = 0 := by omega
      simp [h, h1, h2, h3, h4, List.replicate_succ']
    · have h1 : min f.toNat (n + 1) = f.toNat := by omega
      have h2 : min f.toNat n = f.toNat := by omega
      have h3 : n + 1 - f.toNat = (n - f.toNat) + 1 := by omega
      simp [h, h1, h2, h3, List.replicate_succ']

/-- Setting index `k` of a block of `k` twos followed by at least one zero
turns the first zero into a one. -/
theorem set_replicate_append (k m : ℕ) :
    (List.replicate k 2 ++ List.replicate (m + 1) (0 : ℕ)).set k 1
      = List.replicate k 2 ++ 1 :: List.replicate m 0 := by
  induction k with
  | zero => simp [List.replicate_succ]
  | succ k ih => simp [List.replicate_succ, ih]

/-- Structure of `createNewStarsState` on its call-site domain
`0 ≤ untilIndex ≤ starsLength`: `⌊untilIndex⌋` full stars, then one half
star exactly when `untilIndex` is not an integer, then empty stars. -/
theorem createNewStarsState_eq (n : ℕ) (b : ℚ) (h0 : 0 ≤ b) (hb : b ≤ (n : ℚ)) :
    createNewStarsState n b
      = List.replicate (⌊b⌋.toNat) 2
        ++ (if b ≠ (⌊b⌋ : ℚ) then [1] else [])
        ++ List.replicate (n - ⌊b⌋.toNat - if b ≠ (⌊b⌋ : ℚ) then 1 else 0) 0 := by
  have hf0 : (0 : ℤ) ≤ ⌊b⌋ := Int.floor_nonneg.mpr h0
  have hfn : ⌊b⌋ ≤ (n : ℤ) := by
    have h := Int.floor_le_floor hb
    rwa [Int.floor_natCast] at h
  unfold createNewStarsState
  by_cases hint : b = (⌊b⌋ : ℚ)
  · have hx : ¬ (0 < b - (⌊b⌋ : ℚ)) := by rw [← hint]; simp
    rw [if_neg hx, starsFromBoundary_eq _ hf0]
    have hmin : min (⌊b⌋).toNat n = (⌊b⌋).toNat := by omega
    rw [hmin, if_neg (not_not_intro hint), if_neg (not_not_intro hint)]
    simp
  · have hlt : (⌊b⌋ : ℚ) < b := lt_of_le_of_ne (Int.floor_le b) (fun h => hint h.symm)
    have hx : 0 < b - (⌊b⌋ : ℚ) := by linarith
    have hbn : b ≠ (n : ℚ) := by
      intro h
      apply hint
      rw [h, Int.floor_natCast]
      norm_cast
    have hflt : ⌊b⌋ < (n : ℤ) := Int.floor_lt.mpr (by push_cast; exact lt_of_le_of_ne hb hbn)
    rw [if_pos hx, if_pos hf0, if_pos hint, if_pos hint, starsFromBoundary_eq _ hf0]
    have hmin : min (⌊b⌋).toNat n = (⌊b⌋).toNat := by omega
    have hsub : n - (⌊b⌋).toNat = (n - (⌊b⌋).toNat - 1) + 1 := by omega
    rw [hmin, hsub, set_replicate_append]
    simp

/-- The stars-state array always has exactly `starsLength` entries. -/
theorem createNewStarsState_length (n : ℕ) (b : ℚ) :
    (createNewStarsState n b).length = n := by
  unfold createNewStarsState
  split
  · split <;> simp [starsFromBoundary]
  · simp [starsFromBoundary]

/-- C1: for every `starCount n > 0` and every boundary `b` in `[0, n]`,
`deriveFillState` (`createNewStarsState`) returns exactly `⌊b⌋` full
entries (`2`), followed by exactly one half entry (`1`) precisely when `b`
is not an integer, followed by empty entries (`0`), with total length `n`;
in particular boundary `0` gives all empty stars and boundary `n` gives
all full stars. -/
theorem deriveFillState_structure (n : ℕ) (b : ℚ) (hn : 0 < n) (h0 : 0 ≤ b)
    (hb : b ≤ (n : ℚ)) :
    createNewStarsState n b
        = List.replicate (⌊b⌋.toNat) 2
          ++ (if b ≠ (⌊b⌋ : ℚ) then [1] else [])
          ++ List.replicate (n - ⌊b⌋.toNat - if b ≠ (⌊b⌋ : ℚ) then 1 else 0) 0
      ∧ (createNewStarsState n b).length = n
      ∧ createNewStarsState n (0 : ℚ) = List.replicate n 0
      ∧ createNewStarsState n ((n : ℕ) : ℚ) = List.replicate n 2 := by
  refine ⟨createNewStarsState_eq n b h0 hb, createNewStarsState_length n b, ?_, ?_⟩
  · have h := createNewStarsState_eq n 0 le_rfl (by positivity)
    simpa using h
  · have h := createNewStarsState_eq n ((n : ℕ) : ℚ) (by positivity) le_rfl
    simpa [Int.floor_natCast] using h

/-- Witness for C1 at `starCount = 5` and boundary `5/2`. -/
theorem deriveFillState_structure_witness :
    0 < 5 ∧ (0 : ℚ) ≤ 5 / 2 ∧ (5 / 2 : ℚ) ≤ ((5 : ℕ) : ℚ)
      ∧ (createNewStarsState 5 (5 / 2)
            = List.replicate (⌊(5 / 2 : ℚ)⌋.toNat) 2
              ++ (if (5 / 2 : ℚ) ≠ (⌊(5 / 2 : ℚ)⌋ : ℚ) then [1] else [])
              ++ List.replicate
                  (5 - ⌊(5 / 2 : ℚ)⌋.toNat - if (5 / 2 : ℚ) ≠ (⌊(5 / 2 : ℚ)⌋ : ℚ) then 1 else 0) 0
          ∧ (createNewStarsState 5 (5 / 2)).length = 5
          ∧ createNewStarsState 5 (0 : ℚ) = List.replicate 5 0
          ∧ createNewStarsState 5 ((5 : ℕ) : ℚ) = List.replicate 5 2) :=
  ⟨by decide, by norm_num, by norm_num,
    deriveFillState_structure 5 (5 / 2) (by decide) (by norm_num) (by norm_num)⟩

/-- C2: construction raises a descriptive configuration error exactly when
`initialRating` lies outside `[0, starsLength]`, or `starsLength ≤ 0`, or
`isReadOnly` and `isHoverEnabled` are both true; when no error is raised
the state is initialised from the given values unchanged (nothing is
clamped or defaulted away).  The interaction operations (`handleClick`,
`handleMouseMove`, `handleMouseLeave`) are total functions that return
plain states, so no error can arise from them. -/
theorem construct_error_iff (c : Config) :
    ((∃ msg, construct c = Except.error msg) ↔
        (c.initialRating < 0 ∨ (c.starsLength : ℚ) < c.initialRating ∨ c.starsLength ≤ 0
          ∨ (c.isReadOnly = true ∧ c.isHoverEnabled = true)))
      ∧ (∀ s, construct c = Except.ok s →
          s.starsState = createNewStarsState c.starsLength c.initialRating
            ∧ s.previousStarsState = createNewStarsState c.starsLength c.initialRating
            ∧ s.lastClickedUntilIndexState = some c.initialRating
            ∧ s.lastSide = none) := by
  unfold construct
  split_ifs with h1 h2 h3
  · refine ⟨⟨fun _ => ?_, fun _ => ⟨_, rfl⟩⟩, fun s hs => by simp at hs⟩
    rcases h1 with h | h
    · exact Or.inr (Or.inl h)
    · exact Or.inl h
  · exact ⟨⟨fun _ => Or.inr (Or.inr (Or.inl h2)), fun _ => ⟨_, rfl⟩⟩, fun s hs => by simp at hs⟩
  · refine ⟨⟨fun _ => ?_, fun _ => ⟨_, rfl⟩⟩, fun s hs => by simp at hs⟩
    rw [Bool.and_eq_true] at h3
    exact Or.inr (Or.inr (Or.inr h3))
  · refine ⟨⟨fun h => ?_, fun h => ?_⟩, fun s hs => ?_⟩
    · rcases h with ⟨msg, hmsg⟩
      simp at hmsg
    · exfalso
      push_neg at h1
      rcases h with h | h | h | h
      · exact absurd h (not_lt.mpr h1.2)
      · exact absurd h (not_lt.mpr h1.1)
      · exact absurd h h2
      · exact h3 (by rw [h.1, h.2]; rfl)
    · rw [Except.ok.injEq] at hs
      subst hs
      exact ⟨rfl, rfl, rfl, rfl⟩

/-- C3: when the stored `lastClickedUntilIndexState` is some boundary `b`
and a click computes the same boundary `b`, the toggle-off branch sets the
stars all empty, clears the stored boundary to `none`, and reports the
rating `0` to the host exactly once. -/
theorem click_toggle_off (isHalfRatingEnabled : Bool) (n : ℕ) (s : ComponentState)
    (index : ℕ) (offsetX width : ℚ) (b : ℚ)
    (hb : getUntilIndex isHalfRatingEnabled (isHalfClicked offsetX width) index = b)
    (hlast : s.lastClickedUntilIndexState = some b) :
    handleClick isHalfRatingEnabled n s index offsetX width
      = ({ starsState := List.replicate n 0
           previousStarsState := List.replicate n 0
           lastClickedUntilIndexState := none
           lastSide := s.lastSide }, [0]) := by
  unfold handleClick handleStarsStateUpdate
  rw [hb, hlast, if_pos rfl]

/-- Witness for C3: clicking slot 3 again while boundary 3 is committed. -/
theorem click_toggle_off_witness :
    getUntilIndex false (isHalfClicked 1 10) 3 = 3
      ∧ (ComponentState.mk [2, 2, 2, 0, 0] [0, 0, 0, 0, 0] (some 3) none).lastClickedUntilIndexState
        = some 3
      ∧ handleClick false 5 (ComponentState.mk [2, 2, 2, 0, 0] [0, 0, 0, 0, 0] (some 3) none) 3 1 10
        = ({ starsState := List.replicate 5 0
             previousStarsState := List.replicate 5 0
             lastClickedUntilIndexState := none
             lastSide := (ComponentState.mk [2, 2, 2, 0, 0] [0, 0, 0, 0, 0] (some 3) none).lastSide },
           [0]) :=
  ⟨by decide, by decide,
    click_toggle_off false 5 (ComponentState.mk [2, 2, 2, 0, 0] [0, 0, 0, 0, 0] (some 3) none)
      3 1 10 3 (by decide) (by decide)⟩

/-- C4: a click whose computed boundary `b` differs from the stored
`lastClickedUntilIndexState` derives the stars from `b` alone, stores `b`
as the committed boundary, and reports `b` to the host exactly once; the
new stars and reported rating are `createNewStarsState starsLength b` and
`b`, functions of `b` and `starsLength` only, independent of any earlier
commit. -/
theorem click_commit (isHalfRatingEnabled : Bool) (n : ℕ) (s : ComponentState)
    (index : ℕ) (offsetX width : ℚ) (b : ℚ)
    (hb : getUntilIndex isHalfRatingEnabled (isHalfClicked offsetX width) index = b)
    (hlast : s.lastClickedUntilIndexState ≠ some b) :
    handleClick isHalfRatingEnabled n s index offsetX width
      = ({ starsState := createNewStarsState n b
           previousStarsState := s.starsState
           lastClickedUntilIndexState := some b
           lastSide := s.lastSide }, [b]) := by
  unfold handleClick handleStarsStateUpdate
  rw [hb, if_neg hlast]

/-- Witness for C4: clicking slot 4 while boundary 3 is committed. -/
theorem click_commit_witness :
    getUntilIndex false (isHalfClicked 9 10) 4 = 4
      ∧ (ComponentState.mk [2, 2, 2, 0, 0] [0, 0, 0, 0, 0] (some 3) none).lastClickedUntilIndexState
        ≠ some 4
      ∧ handleClick false 5 (ComponentState.mk [2, 2, 2, 0, 0] [0, 0, 0, 0, 0] (some 3) none) 4 9 10
        = ({ starsState := createNewStarsState 5 4
             previousStarsState := [2, 2, 2, 0, 0]
             lastClickedUntilIndexState := some 4
             lastSide := none }, [4]) :=
  ⟨by decide, by decide,
    click_commit false 5 (ComponentState.mk [2, 2, 2, 0, 0] [0, 0, 0, 0, 0] (some 3) none)
      4 9 10 4 (by decide) (by decide)⟩

/-- C5: a click funnels through `getUntilIndex`; with half ratings enabled
the computed boundary is `index - 0.5` when the pointer offset is in the
left half of the slot (offset below half the width) and `index` otherwise,
and with half ratings disabled it is always `index`, whatever the offset.
-/
theorem click_boundary (isHalfRatingEnabled : Bool) (n : ℕ) (s : ComponentState)
    (index : ℕ) (offsetX width : ℚ) :
    handleClick isHalfRatingEnabled n s index offsetX width
        = handleStarsStateUpdate n s
            (getUntilIndex isHalfRatingEnabled (isHalfClicked offsetX width) index)
      ∧ (isHalfRatingEnabled = true →
          getUntilIndex isHalfRatingEnabled (isHalfClicked offsetX width) index
            = if offsetX < width / 2 then (index : ℚ) - 0.5 else (index : ℚ))
      ∧ (isHalfRatingEnabled = false →
          getUntilIndex isHalfRatingEnabled (isHalfClicked offsetX width) index
            = (index : ℚ)) := by
  refine ⟨rfl, fun h => ?_, fun h => ?_⟩
  · subst h
    unfold getUntilIndex isHalfClicked
    by_cases hc : offsetX < width / 2 <;> simp [hc]
  · subst h
    simp [getUntilIndex]

/-- Witness for C5: slot 2, pointer 1 of 10 across, half ratings on. -/
theorem click_boundary_witness :
    handleClick true 5 (ComponentState.mk [0, 0, 0, 0, 0] [0, 0, 0, 0, 0] (some 0) none) 2 1 10
        = handleStarsStateUpdate 5 (ComponentState.mk [0, 0, 0, 0, 0] [0, 0, 0, 0, 0] (some 0) none)
            (getUntilIndex true (isHalfClicked 1 10) 2)
      ∧ (true = true →
          getUntilIndex true (isHalfClicked 1 10) 2
            = if (1 : ℚ) < 10 / 2 then ((2 : ℕ) : ℚ) - 0.5 else ((2 : ℕ) : ℚ))
      ∧ (true = false → getUntilIndex true (isHalfClicked 1 10) 2 = ((2 : ℕ) : ℚ)) :=
  click_boundary true 5 (ComponentState.mk [0, 0, 0, 0, 0] [0, 0, 0, 0, 0] (some 0) none) 2 1 10

/-- C7: a pointer move leaves the committed boundary (and hence the
committed rating) untouched, leaves the leave-snapshot untouched, and
reports nothing to the host; it can change only `starsState` and
`lastSide`. -/
theorem pointer_move_frame (cfg : Config) (s : ComponentState) (index : ℕ)
    (clientX rectLeft width : ℚ) :
    (step cfg s (Event.move index clientX rectLeft width)).1.lastClickedUntilIndexState
        = s.lastClickedUntilIndexState
      ∧ (step cfg s (Event.move index clientX rectLeft width)).1.previousStarsState
        = s.previousStarsState
      ∧ (step cfg s (Event.move index clientX rectLeft width)).2 = [] := by
  simp only [step, handleMouseMove]
  split_ifs <;> simp

/-- C8: a pointer move over slot `index` recomputes the stars from
boundary `index` unconditionally when half ratings are off; with half
ratings on it recomputes from `index - 0.5` and records side `L` when the
pointer is on the left side and the remembered side is not `L`, recomputes
from `index` and records side `R` when the pointer is on the right side
and the remembered side is not `R`, and in every other case changes
nothing. -/
theorem mouse_move_spec (isHalfRatingEnabled : Bool) (n : ℕ) (s : ComponentState)
    (index : ℕ) (clientX rectLeft width : ℚ) :
    (isHalfRatingEnabled = false →
        handleMouseMove isHalfRatingEnabled n s index clientX rectLeft width
          = { s with starsState := createNewStarsState n (index : ℚ) })
      ∧ (isHalfRatingEnabled = true →
          (clientX < rectLeft + width / 2 → s.lastSide ≠ some Side.L →
              handleMouseMove isHalfRatingEnabled n s index clientX rectLeft width
                = { s with starsState := createNewStarsState n ((index : ℚ) - 0.5)
                           lastSide := some Side.L })
            ∧ (¬ clientX < rectLeft + width / 2 → s.lastSide ≠ some Side.R →
                handleMouseMove isHalfRatingEnabled n s index clientX rectLeft width
                  = { s with starsState := createNewStarsState n (index : ℚ)
                             lastSide := some Side.R })
            ∧ (clientX < rectLeft + width / 2 → s.lastSide = some Side.L →
                handleMouseMove isHalfRatingEnabled n s index clientX rectLeft width = s)
            ∧ (¬ clientX < rectLeft + width / 2 → s.lastSide = some Side.R →
                handleMouseMove isHalfRatingEnabled n s index clientX rectLeft width = s)) := by
  constructor
  · intro h
    subst h
    simp [handleMouseMove]
  · intro h
    subst h
    refine ⟨fun hc hl => ?_, fun hc hl => ?_, fun hc hl => ?_, fun hc hl => ?_⟩ <;>
      simp [handleMouseMove, hc, hl]

/-- Witness for C8: slot 2, pointer at 1 of 10 across, no remembered
side, half ratings on. -/
theorem mouse_move_spec_witness :
    (true = false →
        handleMouseMove true 5 (ComponentState.mk [0, 0, 0, 0, 0] [0, 0, 0, 0, 0] (some 0) none)
            2 1 0 10
          = { ComponentState.mk [0, 0, 0, 0, 0] [0, 0, 0, 0, 0] (some 0) none with
                starsState := createNewStarsState 5 ((2 : ℕ) : ℚ) })
      ∧ (true = true →
          ((1 : ℚ) < 0 + 10 / 2 →
              (ComponentState.mk [0, 0, 0, 0, 0] [0, 0, 0, 0, 0] (some 0) none).lastSide
                ≠ some Side.L →
              handleMouseMove true 5
                  (ComponentState.mk [0, 0, 0, 0, 0] [0, 0, 0, 0, 0] (some 0) none) 2 1 0 10
                = { ComponentState.mk [0, 0, 0, 0, 0] [0, 0, 0, 0, 0] (some 0) none with
                      starsState := createNewStarsState 5 (((2 : ℕ) : ℚ) - 0.5)
                      lastSide := some Side.L })
            ∧ (¬ (1 : ℚ) < 0 + 10 / 2 →
                (ComponentState.mk [0, 0, 0, 0, 0] [0, 0, 0, 0, 0] (some 0) none).lastSide
                  ≠ some Side.R →
                handleMouseMove true 5
                    (ComponentState.mk [0, 0, 0, 0, 0] [0, 0, 0, 0, 0] (some 0) none) 2 1 0 10
                  = { ComponentState.mk [0, 0, 0, 0, 0] [0, 0, 0, 0, 0] (some 0) none with
                        starsState := createNewStarsState 5 ((2 : ℕ) : ℚ)
                        lastSide := some Side.R })
            ∧ ((1 : ℚ) < 0 + 10 / 2 →
                (ComponentState.mk [0, 0, 0, 0, 0] [0, 0, 0, 0, 0] (some 0) none).lastSide
                  = some Side.L →
                handleMouseMove true 5
                    (ComponentState.mk [0, 0, 0, 0, 0] [0, 0, 0, 0, 0] (some 0) none) 2 1 0 10
                  = ComponentState.mk [0, 0, 0, 0, 0] [0, 0, 0, 0, 0] (some 0) none)
            ∧ (¬ (1 : ℚ) < 0 + 10 / 2 →
                (ComponentState.mk [0, 0, 0, 0, 0] [0, 0, 0, 0, 0] (some 0) none).lastSide
                  = some Side.R →
                handleMouseMove true 5
                    (ComponentState.mk [0, 0, 0, 0, 0] [0, 0, 0, 0, 0] (some 0) none) 2 1 0 10
                  = ComponentState.mk [0, 0, 0, 0, 0] [0, 0, 0, 0, 0] (some 0) none)) :=
  mouse_move_spec true 5 (ComponentState.mk [0, 0, 0, 0, 0] [0, 0, 0, 0, 0] (some 0) none) 2 1 0 10

/-- A pointer move never changes the leave-snapshot
`previousStarsState`. -/
theorem step_move_previous (cfg : Config) (s : ComponentState) (e : Event)
    (he : isMoveEvent e = true) :
    (step cfg s e).1.previousStarsState = s.previousStarsState := by
  cases e with
  | click index offsetX width => simp [isMoveEvent] at he
  | move index clientX rectLeft width =>
      simp only [step, handleMouseMove]
      split_ifs <;> simp
  | leave => simp [isMoveEvent] at he

/-- A run of pointer moves never changes the leave-snapshot
`previousStarsState`. -/
theorem run_moves_previous (cfg : Config) (s : ComponentState) (ms : List Event)
    (hm : ms.all isMoveEvent = true) :
    (run cfg s ms).previousStarsState = s.previousStarsState := by
  induction ms generalizing s with
  | nil => rfl
  | cons e es ih =>
      rw [List.all_cons, Bool.and_eq_true] at hm
      rw [run, ih _ hm.2, step_move_previous cfg s e hm.1]

/-- C6 counterexample: after the commit of boundary 4 the committed
baseline on screen is `[2, 2, 2, 2, 0]`, yet one hover move over slot 1
followed by a pointer leave renders `[2, 2, 0, 0, 0]` — the snapshot taken
before the click — so the leave does not restore the fill state present
immediately before the hover sequence began. -/
theorem leave_not_committed_baseline :
    construct hoverCfg = Except.ok hoverInit
      ∧ hoverCommitted.lastClickedUntilIndexState = some 4
      ∧ hoverCommitted.starsState = [2, 2, 2, 2, 0]
      ∧ (step hoverCfg (run hoverCfg hoverCommitted [Event.move 1 1 0 10])
            Event.leave).1.starsState = [2, 2, 0, 0, 0]
      ∧ (step hoverCfg (run hoverCfg hoverCommitted [Event.move 1 1 0 10])
            Event.leave).1.starsState ≠ hoverCommitted.starsState := by
  refine ⟨by with_unfolding_all rfl, ?_, ?_, ?_, ?_⟩ <;> with_unfolding_all decide

/-- After any run of pointer moves, a leave renders the pre-run snapshot
`previousStarsState` and clears the remembered side. -/
theorem leave_after_moves (cfg : Config) (s : ComponentState) (ms : List Event)
    (hm : ms.all isMoveEvent = true) (hh : cfg.isHoverEnabled = true) :
    (step cfg (run cfg s ms) Event.leave).1.starsState = s.previousStarsState
      ∧ (step cfg (run cfg s ms) Event.leave).1.lastSide = none := by
  constructor
  · simp only [step, hh, if_true, handleMouseLeave]
    exact run_moves_previous cfg s ms hm
  · simp [step, hh, handleMouseLeave]

/-- The snapshot a click leaves behind: the all-empty row for a toggle-off
click, the pre-click stars otherwise. -/
theorem click_previous_snapshot (cfg : Config) (s0 : ComponentState)
    (index : ℕ) (offsetX width : ℚ) (hro : cfg.isReadOnly = false) :
    (step cfg s0 (Event.click index offsetX width)).1.previousStarsState
      = if s0.lastClickedUntilIndexState
          = some (getUntilIndex cfg.isHalfRatingEnabled (isHalfClicked offsetX width) index)
        then List.replicate cfg.starsLength 0
        else s0.starsState := by
  simp only [step, hro]
  unfold handleClick handleStarsStateUpdate
  by_cases heq : s0.lastClickedUntilIndexState
      = some (getUntilIndex cfg.isHalfRatingEnabled (isHalfClicked offsetX width) index)
  · rw [if_pos heq, if_pos heq]
    simp
  · rw [if_neg heq, if_neg heq]
    simp

/-- The mounted state's snapshot is the initial fill state. -/
theorem construct_previous (cfg : Config) (s : ComponentState)
    (hcons : construct cfg = Except.ok s) :
    s.previousStarsState = createNewStarsState cfg.starsLength cfg.initialRating := by
  unfold construct at hcons
  split_ifs at hcons
  rw [Except.ok.injEq] at hcons
  subst hcons
  rfl

/-- C6 (amended): with hover enabled and not read-only, a pointer leave
after any sequence of hover moves restores the stars to the snapshot
`previousStarsState` and clears `lastSide` to `none`, however many moves
occurred; following construction with no click the snapshot is the
initial fill state (the pre-hover baseline, as the original claim says),
after a toggle-off click it is the all-empty row, and after a commit
click it is the fill state rendered immediately *before* that click,
which need not equal the committed fill state. -/
theorem leave_restores_snapshot (cfg : Config) (sMount s0 : ComponentState)
    (index : ℕ) (offsetX width : ℚ) (ms : List Event)
    (hm : ms.all isMoveEvent = true) (hh : cfg.isHoverEnabled = true)
    (hro : cfg.isReadOnly = false) (hcons : construct cfg = Except.ok sMount) :
    ((step cfg (run cfg sMount ms) Event.leave).1.starsState
        = createNewStarsState cfg.starsLength cfg.initialRating
      ∧ (step cfg (run cfg sMount ms) Event.leave).1.lastSide = none)
      ∧ (s0.lastClickedUntilIndexState
            = some (getUntilIndex cfg.isHalfRatingEnabled (isHalfClicked offsetX width) index) →
          (step cfg (run cfg (step cfg s0 (Event.click index offsetX width)).1 ms)
              Event.leave).1.starsState = List.replicate cfg.starsLength 0
            ∧ (step cfg (run cfg (step cfg s0 (Event.click index offsetX width)).1 ms)
                Event.leave).1.lastSide = none)
      ∧ (s0.lastClickedUntilIndexState
            ≠ some (getUntilIndex cfg.isHalfRatingEnabled (isHalfClicked offsetX width) index) →
          (step cfg (run cfg (step cfg s0 (Event.click index offsetX width)).1 ms)
              Event.leave).1.starsState = s0.starsState
            ∧ (step cfg (run cfg (step cfg s0 (Event.click index offsetX width)).1 ms)
                Event.leave).1.lastSide = none) := by
  have hbase := leave_after_moves cfg sMount ms hm hh
  have hclickbase :=
    leave_after_moves cfg (step cfg s0 (Event.click index offsetX width)).1 ms hm hh
  have hsnap := click_previous_snapshot cfg s0 index offsetX width hro
  refine ⟨⟨?_, hbase.2⟩, fun heq => ⟨?_, hclickbase.2⟩, fun hne => ⟨?_, hclickbase.2⟩⟩
  · rw [hbase.1, construct_previous cfg sMount hcons]
  · rw [hclickbase.1, hsnap, if_pos heq]
  · rw [hclickbase.1, hsnap, if_neg hne]

/-- Witness for the amended C6: mount `plainCfg`, hover slot 1, leave;
and click boundary 3 from the mounted state, hover slot 1, leave. -/
theorem leave_restores_snapshot_witness :
    [Event.move 1 1 0 10].all isMoveEvent = true
      ∧ plainCfg.isHoverEnabled = true
      ∧ plainCfg.isReadOnly = false
      ∧ construct plainCfg = Except.ok plainInit
      ∧ (((step plainCfg (run plainCfg plainInit [Event.move 1 1 0 10]) Event.leave).1.starsState
            = createNewStarsState plainCfg.starsLength plainCfg.initialRating
          ∧ (step plainCfg (run plainCfg plainInit [Event.move 1 1 0 10])
              Event.leave).1.lastSide = none)
        ∧ (plainInit.lastClickedUntilIndexState
              = some (getUntilIndex plainCfg.isHalfRatingEnabled (isHalfClicked 9 10) 3) →
            (step plainCfg
                (run plainCfg (step plainCfg plainInit (Event.click 3 9 10)).1
                  [Event.move 1 1 0 10]) Event.leave).1.starsState
              = List.replicate plainCfg.starsLength 0
              ∧ (step plainCfg
                  (run plainCfg (step plainCfg plainInit (Event.click 3 9 10)).1
                    [Event.move 1 1 0 10]) Event.leave).1.lastSide = none)
        ∧ (plainInit.lastClickedUntilIndexState
              ≠ some (getUntilIndex plainCfg.isHalfRatingEnabled (isHalfClicked 9 10) 3) →
            (step plainCfg
                (run plainCfg (step plainCfg plainInit (Event.click 3 9 10)).1
                  [Event.move 1 1 0 10]) Event.leave).1.starsState = plainInit.starsState
              ∧ (step plainCfg
                  (run plainCfg (step plainCfg plainInit (Event.click 3 9 10)).1
                    [Event.move 1 1 0 10]) Event.leave).1.lastSide = none)) :=
  ⟨by decide, rfl, rfl, by with_unfolding_all rfl,
    leave_restores_snapshot plainCfg plainInit plainInit 3 9 10 [Event.move 1 1 0 10]
      (by decide) rfl rfl (by with_unfolding_all rfl)⟩

/-- The all-empty stars array is well shaped. -/
theorem starsOk_replicate_zero (n : ℕ) : StarsOk n (List.replicate n 0) := by
  refine ⟨List.length_replicate n 0, ?_, ?_⟩
  · intro x hx
    rw [List.eq_of_mem_replicate hx]
    exact Or.inl rfl
  · simp [List.count_replicate]

/-- A stars array derived from a boundary in `[0, n]` is well shaped. -/
theorem starsOk_create (n : ℕ) (b : ℚ) (h0 : 0 ≤ b) (hb : b ≤ (n : ℚ)) :
    StarsOk n (createNewStarsState n b) := by
  refine ⟨createNewStarsState_length n b, ?_, ?_⟩
  · rw [createNewStarsState_eq n b h0 hb]
    intro x hx
    rcases List.mem_append.mp hx with hx | hx
    · rcases List.mem_append.mp hx with hx | hx
      · exact Or.inr (Or.inr (List.eq_of_mem_replicate hx))
      · split_ifs at hx
        · rcases List.mem_singleton.mp hx with h
          exact Or.inr (Or.inl h)
        · cases hx
    · exact Or.inl (List.eq_of_mem_replicate hx)
  · rw [createNewStarsState_eq n b h0 hb]
    split_ifs <;> simp [List.count_append, List.count_replicate]

/-- The boundary a slot produces lies in `[0, n]`. -/
theorem getUntilIndex_bounds (isHalfRatingEnabled leftHalf : Bool) (index n : ℕ)
    (h1 : 1 ≤ index) (h2 : index ≤ n) :
    0 ≤ getUntilIndex isHalfRatingEnabled leftHalf index
      ∧ getUntilIndex isHalfRatingEnabled leftHalf index ≤ (n : ℚ) := by
  have hi1 : (1 : ℚ) ≤ (index : ℚ) := by exact_mod_cast h1
  have hin : (index : ℚ) ≤ (n : ℚ) := by exact_mod_cast h2
  unfold getUntilIndex
  split_ifs
  · constructor
    · norm_num
      linarith
    · norm_num
      linarith
  · exact ⟨by linarith, hin⟩

/-- C9: under the configuration preconditions (`starsLength > 0`,
`0 ≤ initialRating ≤ starsLength`), the constructed state is well shaped,
and every operation — click (including its toggle-off reset), pointer
move, pointer leave — sent from a rendered slot keeps the stars arrays at
exactly `starsLength` entries from {0, 1, 2} with at most one half
star. -/
theorem fillState_invariant (cfg : Config) (s0 s : ComponentState) (e : Event)
    (hn : 0 < cfg.starsLength) (hr0 : 0 ≤ cfg.initialRating)
    (hrn : cfg.initialRating ≤ (cfg.starsLength : ℚ))
    (hcons : construct cfg = Except.ok s0)
    (hs : StateOk cfg.starsLength s) (he : EventOk cfg.starsLength e) :
    StateOk cfg.starsLength s0 ∧ StateOk cfg.starsLength (step cfg s e).1 := by
  constructor
  · unfold construct at hcons
    split_ifs at hcons
    rw [Except.ok.injEq] at hcons
    subst hcons
    exact ⟨starsOk_create _ _ hr0 hrn, starsOk_create _ _ hr0 hrn⟩
  · cases e with
    | click index offsetX width =>
        rcases he with ⟨h1, h2⟩
        have hbounds := getUntilIndex_bounds cfg.isHalfRatingEnabled
          (isHalfClicked offsetX width) index cfg.starsLength h1 h2
        simp only [step]
        split_ifs
        · exact hs
        · unfold handleClick handleStarsStateUpdate
          split_ifs
          · exact ⟨starsOk_replicate_zero _, starsOk_replicate_zero _⟩
          · exact ⟨starsOk_create _ _ hbounds.1 hbounds.2, hs.1⟩
    | move index clientX rectLeft width =>
        rcases he with ⟨h1, h2⟩
        have hi1 : (1 : ℚ) ≤ (index : ℚ) := by exact_mod_cast h1
        have hin : (index : ℚ) ≤ (cfg.starsLength : ℚ) := by exact_mod_cast h2
        have hfull : StarsOk cfg.starsLength (createNewStarsState cfg.starsLength (index : ℚ)) :=
          starsOk_create _ _ (by linarith) hin
        have hhalf : StarsOk cfg.starsLength
            (createNewStarsState cfg.starsLength ((index : ℚ) - 0.5)) := by
          refine starsOk_create _ _ ?_ ?_
          · norm_num
            linarith
          · norm_num
            linarith
        simp only [step, handleMouseMove]
        split_ifs <;> first
          | exact hs
          | exact ⟨hfull, hs.2⟩
          | exact ⟨hhalf, hs.2⟩
    | leave =>
        simp only [step, handleMouseLeave]
        split_ifs
        · exact ⟨hs.2, hs.2⟩
        · exact hs

/-- Witness for C9: the mounted five-star state and a click on slot 3. -/
theorem fillState_invariant_witness :
    0 < (Config.mk 5 false true false 0).starsLength
      ∧ (0 : ℚ) ≤ (Config.mk 5 false true false 0).initialRating
      ∧ (Config.mk 5 false true false 0).initialRating
        ≤ ((Config.mk 5 false true false 0).starsLength : ℚ)
      ∧ construct (Config.mk 5 false true false 0)
        = Except.ok (ComponentState.mk [0, 0, 0, 0, 0] [0, 0, 0, 0, 0] (some 0) none)
      ∧ StateOk 5 (ComponentState.mk [0, 0, 0, 0, 0] [0, 0, 0, 0, 0] (some 0) none)
      ∧ EventOk 5 (Event.click 3 1 10)
      ∧ (StateOk (Config.mk 5 false true false 0).starsLength
            (ComponentState.mk [0, 0, 0, 0, 0] [0, 0, 0, 0, 0] (some 0) none)
          ∧ StateOk (Config.mk 5 false true false 0).starsLength
            (step (Config.mk 5 false true false 0)
              (ComponentState.mk [0, 0, 0, 0, 0] [0, 0, 0, 0, 0] (some 0) none)
              (Event.click 3 1 10)).1) :=
  ⟨by decide, by decide, by norm_num, by with_unfolding_all rfl,
    ⟨by decide, by decide⟩, by decide,
    fillState_invariant (Config.mk 5 false true false 0)
      (ComponentState.mk [0, 0, 0, 0, 0] [0, 0, 0, 0, 0] (some 0) none)
      (ComponentState.mk [0, 0, 0, 0, 0] [0, 0, 0, 0, 0] (some 0) none)
      (Event.click 3 1 10) (by decide) (by decide) (by norm_num)
      (by with_unfolding_all rfl) ⟨by decide, by decide⟩ (by decide)⟩

/-- A rational is an integer exactly when its reduced denominator is 1,
the test the JS default `initialRating % 1 !== 0` performs. -/
theorem den_one_iff_int (q : ℚ) : q.den = 1 ↔ ∃ k : ℤ, q = (k : ℚ) := by
  constructor
  · intro h
    exact ⟨q.num, ((Rat.den_eq_one_iff q).mp h).symm⟩
  · rintro ⟨k, rfl⟩
    exact Rat.den_intCast k

/-- C10: with the props omitted, `isHalfRatingEnabled` defaults to true
exactly when `initialRating` is not an integer, and `isHoverEnabled`
defaults to the negation of `isReadOnly`; consequently construction with
`isReadOnly = some true` and `isHoverEnabled` omitted succeeds whenever
the resolved rating and star count are in range, and a fractional
`initialRating` alone silently enables half-star behaviour. -/
theorem defaults_spec (p : StarRatingProps)
    (hhalf : p.isHalfRatingEnabled = none) (hhover : p.isHoverEnabled = none) :
    ((resolveProps p).isHalfRatingEnabled = true ↔
        ¬ ∃ k : ℤ, (resolveProps p).initialRating = (k : ℚ))
      ∧ (resolveProps p).isHoverEnabled = !(resolveProps p).isReadOnly
      ∧ (p.isReadOnly = some true →
          0 ≤ (resolveProps p).initialRating →
          (resolveProps p).initialRating ≤ ((resolveProps p).starsLength : ℚ) →
          0 < (resolveProps p).starsLength →
          ∃ s, construct (resolveProps p) = Except.ok s) := by
  refine ⟨?_, ?_, ?_⟩
  · simp only [resolveProps, hhalf, Option.getD_none]
    rw [decide_eq_true_iff]
    exact not_congr (den_one_iff_int _)
  · simp only [resolveProps, hhover, Option.getD_none]
  · intro hro h1 h2 h3
    have hc1 : ¬((resolveProps p).initialRating > ((resolveProps p).starsLength : ℚ)
        ∨ (resolveProps p).initialRating < 0) := by
      push_neg
      exact ⟨h2, h1⟩
    have hc2 : ¬((resolveProps p).starsLength ≤ 0) := by omega
    have hc3 : ¬(((resolveProps p).isReadOnly && (resolveProps p).isHoverEnabled) = true) := by
      simp only [resolveProps, hhover, hro, Option.getD_none, Option.getD_some]
      simp
    refine ⟨{ starsState := createNewStarsState (resolveProps p).starsLength
                (resolveProps p).initialRating
              previousStarsState := createNewStarsState (resolveProps p).starsLength
                (resolveProps p).initialRating
              lastClickedUntilIndexState := some (resolveProps p).initialRating
              lastSide := none }, ?_⟩
    unfold construct
    rw [if_neg hc1, if_neg hc2, if_neg hc3]

/-- Witness for C10: all props omitted except `initialRating = 3/2`. -/
theorem defaults_spec_witness :
    (StarRatingProps.mk none none none none (some (3 / 2))).isHalfRatingEnabled = none
      ∧ (StarRatingProps.mk none none none none (some (3 / 2))).isHoverEnabled = none
      ∧ (((resolveProps (StarRatingProps.mk none none none none (some (3 / 2)))).isHalfRatingEnabled
            = true ↔
            ¬ ∃ k : ℤ,
              (resolveProps (StarRatingProps.mk none none none none (some (3 / 2)))).initialRating
                = (k : ℚ))
          ∧ (resolveProps (StarRatingProps.mk none none none none (some (3 / 2)))).isHoverEnabled
            = !(resolveProps (StarRatingProps.mk none none none none (some (3 / 2)))).isReadOnly
          ∧ ((StarRatingProps.mk none none none none (some (3 / 2))).isReadOnly = some true →
              0 ≤ (resolveProps (StarRatingProps.mk none none none none (some (3 / 2)))).initialRating →
              (resolveProps (StarRatingProps.mk none none none none (some (3 / 2)))).initialRating
                ≤ ((resolveProps (StarRatingProps.mk none none none none (some (3 / 2)))).starsLength : ℚ) →
              0 < (resolveProps (StarRatingProps.mk none none none none (some (3 / 2)))).starsLength →
              ∃ s, construct (resolveProps (StarRatingProps.mk none none none none (some (3 / 2))))
                = Except.ok s)) :=
  ⟨rfl, rfl, defaults_spec (StarRatingProps.mk none none none none (some (3 / 2))) rfl rfl⟩

end StarRating
